import Mathlib

/-!
Verification of the v2up video-upscaler frame-transformation pipeline.

We give a shallow embedding of the scale-decomposition logic of
`src/processors/spatial_upscaler.py`, the temporal-interpolation loop of
`src/processors/temporal_interpolator.py` (with the interpolation models of
`src/models/rife_model.py`), the resolution validation of `upscale_video`,
the settings adjustment of `src/utils/system_manager.py`, and the audio-mux
fallback of `src/utils/video_processor.py`.

Modelling conventions:
* Python floats are modelled as exact rationals (`ℚ`).  Every constant the
  claims touch (0.01, 0.001, 33.2, 1.5, 2.0, 4.0, 8.0, 240, 0.75, ...) is
  exactly representable in binary64 or sits far from any binary64 rounding
  boundary at the concrete inputs used, so rational arithmetic agrees with
  the float arithmetic of the source on everything proved here.
* Python `int(x)` truncates toward zero and `round(x)` rounds half to even;
  both are embedded explicitly below.
* Exceptions are modelled with `Except`: a raising call returns `.error`,
  a `try/except` boundary is a `match` on the `Except` value.
-/

namespace V2up

/-- Python `int(x)` applied to a float: truncation toward zero. -/
def pyInt (q : ℚ) : ℤ := if 0 ≤ q then ⌊q⌋ else ⌈q⌉

/-- Python `round(x)` (one-argument form): rounds to the nearest integer,
ties to the even integer (banker's rounding). -/
def pyRound (q : ℚ) : ℤ :=
  if q - ⌊q⌋ < 1/2 then ⌊q⌋
  else if 1/2 < q - ⌊q⌋ then ⌊q⌋ + 1
  else if ⌊q⌋ % 2 = 0 then ⌊q⌋ else ⌊q⌋ + 1

theorem pyInt_of_nonneg (q : ℚ) (h : 0 ≤ q) : pyInt q = ⌊q⌋ := if_pos h

/-! ## Spatial upscaler (`src/processors/spatial_upscaler.py`) -/

/-- Resize filters that appear in the source (`cv2.INTER_LANCZOS4`,
`cv2.INTER_LINEAR`, and the unspecified `cv2.resize` default). -/
inductive Filter where
  | lanczos4
  | linear
  | cvDefault
deriving DecidableEq

/-- One operation `_upscale_frame` performs on a frame: an AI enhancer pass
(`self.model.upscale_image`, at the loaded model's native scale) or a
`cv2.resize` to an explicit (width, height). -/
inductive FrameOp where
  | aiPass (modelScale : ℕ)
  | resizeTo (w h : ℤ) (filter : Filter)
deriving DecidableEq

def FrameOp.isAiPass : FrameOp → Bool
  | .aiPass _ => true
  | .resizeTo _ _ _ => false

def FrameOp.isResize : FrameOp → Bool
  | .aiPass _ => false
  | .resizeTo _ _ _ => true

/-- Number of AI enhancer applications in a trace. -/
def aiPassCount (ops : List FrameOp) : ℕ := ops.countP (fun op => op.isAiPass)

/-- Number of resize steps in a trace. -/
def resizeCount (ops : List FrameOp) : ℕ := ops.countP (fun op => op.isResize)

/-- Frame dimensions (`frame.shape[:2]` gives `(h, w)`). -/
structure Dims where
  h : ℤ
  w : ℤ
deriving DecidableEq

/-- An AI pass multiplies both dimensions by the model's native scale
(Real-ESRGAN output size, also the fallback resize in `upscale_image`). -/
def aiOutput (ms : ℕ) (d : Dims) : Dims := ⟨d.h * ms, d.w * ms⟩

/-- `times` successive AI passes, as in the `for _ in range(times)` loop of
`_upscale_frame` case 4. -/
def aiPassLoop (ms : ℕ) : ℕ → Dims → Dims
  | 0, d => d
  | k+1, d => aiPassLoop ms k (aiOutput ms d)

/-- `SpatialUpscaler._load_model`: `ai_model_scale` is 4 for target scale
`>= 3.0`, else 2 (only reached when `use_ai`, i.e. scale `>= 1.5`). -/
def ai_model_scale (scale : ℚ) : ℕ := if 3 ≤ scale then 4 else 2

/-- `SpatialUpscaler.__init__`: `use_ai = self.scale_factor >= 1.5`; the AI
model is loaded if and only if this is true. -/
def use_ai (scale : ℚ) : Bool := decide (3/2 ≤ scale)

/-- `_upscale_frame` case 4 (`scale_factor >= 8.0`): apply the 4× model
`int(scale / 4)` times, then resize iff `abs(scale / 4**times - 1.0) > 0.01`,
with target `int(current_dim * remainder)`. -/
def bigScalePass (scale : ℚ) (d : Dims) : Dims × List FrameOp :=
  let times := (pyInt (scale / 4)).toNat
  let d1 := aiPassLoop 4 times d
  let remainder := scale / 4 ^ times
  if 1/100 < |remainder - 1| then
    (⟨pyInt (d1.h * remainder), pyInt (d1.w * remainder)⟩,
     List.replicate times (FrameOp.aiPass 4) ++
       [FrameOp.resizeTo (pyInt (d1.w * remainder)) (pyInt (d1.h * remainder)) Filter.lanczos4])
  else
    (d1, List.replicate times (FrameOp.aiPass 4))

/-- `_upscale_frame` case 5 (arbitrary scale): one AI pass at
`ai_model_scale`, then resize to `int(original * scale)` iff the resize
factor `scale / ai_model_scale` deviates from 1.0 by more than 0.01. -/
def hybridPass (scale : ℚ) (d : Dims) : Dims × List FrameOp :=
  let ms := ai_model_scale scale
  if 1/100 < |scale / ms - 1| then
    (⟨pyInt (d.h * scale), pyInt (d.w * scale)⟩,
     [FrameOp.aiPass ms,
      FrameOp.resizeTo (pyInt (d.w * scale)) (pyInt (d.h * scale)) Filter.lanczos4])
  else
    (aiOutput ms d, [FrameOp.aiPass ms])

/-- `SpatialUpscaler._upscale_frame`: the resulting frame dimensions and the
trace of operations performed, branch for branch as in the source. -/
def upscale_frame (scale : ℚ) (d : Dims) : Dims × List FrameOp :=
  if scale < 1 then
    (⟨pyInt (d.h * scale), pyInt (d.w * scale)⟩,
     [FrameOp.resizeTo (pyInt (d.w * scale)) (pyInt (d.h * scale)) Filter.lanczos4])
  else if scale < 3/2 then
    (⟨pyInt (d.h * scale), pyInt (d.w * scale)⟩,
     [FrameOp.resizeTo (pyInt (d.w * scale)) (pyInt (d.h * scale)) Filter.lanczos4])
  else if scale = 2 then
    (aiOutput (ai_model_scale scale) d, [FrameOp.aiPass (ai_model_scale scale)])
  else if scale = 4 then
    (aiOutput (ai_model_scale scale) d, [FrameOp.aiPass (ai_model_scale scale)])
  else if 8 ≤ scale then
    bigScalePass scale d
  else
    hybridPass scale d

theorem aiPassCount_replicate (k m : ℕ) :
    aiPassCount (List.replicate k (FrameOp.aiPass m)) = k := by
  induction k with
  | zero => rfl
  | succ n ih =>
    simp only [aiPassCount, List.replicate_succ, List.countP_cons] at ih ⊢
    rw [ih]
    rfl

theorem resizeCount_replicate (k m : ℕ) :
    resizeCount (List.replicate k (FrameOp.aiPass m)) = 0 := by
  induction k with
  | zero => rfl
  | succ n ih =>
    simp only [resizeCount, List.replicate_succ, List.countP_cons] at ih ⊢
    rw [ih]
    rfl

theorem aiPassCount_append (l1 l2 : List FrameOp) :
    aiPassCount (l1 ++ l2) = aiPassCount l1 + aiPassCount l2 := List.countP_append _ _ _

theorem resizeCount_append (l1 l2 : List FrameOp) :
    resizeCount (l1 ++ l2) = resizeCount l1 + resizeCount l2 := List.countP_append _ _ _

/-- C1 (amended): for every requested scale `s ≥ 8.0` (native model scale 4),
`_upscale_frame` applies the AI enhancer exactly `int(s / 4)` times and then
performs a corrective resize iff the remainder `s / 4^times` differs from 1.0
by more than 0.01.  (The pass count is `⌊s/4⌋`, not `⌊log_4 s⌋`.) -/
theorem c1_bigscale_pass_count (s : ℚ) (d : Dims) (h : 8 ≤ s) :
    aiPassCount (upscale_frame s d).2 = (pyInt (s / 4)).toNat ∧
    resizeCount (upscale_frame s d).2 =
      (if 1/100 < |s / 4 ^ (pyInt (s / 4)).toNat - 1| then 1 else 0) := by
  have h1 : ¬ s < 1 := by linarith
  have h2 : ¬ s < 3/2 := by linarith
  have h3 : ¬ s = 2 := by intro e; rw [e] at h; norm_num at h
  have h4 : ¬ s = 4 := by intro e; rw [e] at h; norm_num at h
  rw [upscale_frame, if_neg h1, if_neg h2, if_neg h3, if_neg h4, if_pos h]
  simp only [bigScalePass]
  by_cases hc : 1/100 < |s / 4 ^ (pyInt (s / 4)).toNat - 1|
  · rw [if_pos hc, if_pos hc]
    dsimp only
    constructor
    · rw [aiPassCount_append, aiPassCount_replicate]
      rfl
    · rw [resizeCount_append, resizeCount_replicate]
      rfl
  · rw [if_neg hc, if_neg hc]
    dsimp only
    exact ⟨aiPassCount_replicate _ _, resizeCount_replicate _ _⟩

/-- C1 counterexample: at requested scale 9.0 the code applies the 4× AI
model twice (then downsizes by 9/16), although ⌊log₄ 9⌋ = 1 (4¹ ≤ 9 < 4²):
the claimed pass count "⌊log_nativeRatio(s)⌋, one pass for 9.0, never two"
is false on the code. -/
theorem c1_counterexample_scale9 :
    (upscale_frame 9 ⟨480, 640⟩).2 =
      [FrameOp.aiPass 4, FrameOp.aiPass 4,
       FrameOp.resizeTo 5760 4320 Filter.lanczos4] ∧
    aiPassCount (upscale_frame 9 ⟨480, 640⟩).2 = 2 ∧
    ((4:ℚ) ^ 1 ≤ 9 ∧ ¬ (4:ℚ) ^ 2 ≤ 9) := by
  have hpn : (pyInt ((9:ℚ) / 4)).toNat = 2 := by
    have h2 : pyInt ((9:ℚ) / 4) = 2 := by rw [pyInt, if_pos (by norm_num)]; norm_num
    rw [h2]
    rfl
  have htrace : (upscale_frame 9 ⟨480, 640⟩).2 =
      [FrameOp.aiPass 4, FrameOp.aiPass 4,
       FrameOp.resizeTo 5760 4320 Filter.lanczos4] := by
    rw [upscale_frame, if_neg (by norm_num), if_neg (by norm_num),
      if_neg (by norm_num), if_neg (by norm_num), if_pos (by norm_num)]
    simp only [bigScalePass, hpn]
    rw [if_pos (by
      rw [abs_sub_comm, abs_of_nonneg (by norm_num : (0:ℚ) ≤ 1 - 9/4^2)]
      norm_num)]
    have hloop : aiPassLoop 4 2 (⟨480, 640⟩ : Dims) = ⟨7680, 10240⟩ := rfl
    rw [hloop]
    norm_num [pyInt, List.replicate]
  refine ⟨htrace, ?_, by norm_num, by norm_num⟩
  rw [htrace]
  rfl

/-- Witness for `c1_bigscale_pass_count` at scale 9 on a 640×480 frame. -/
theorem c1_witness :
    (8:ℚ) ≤ 9 ∧
    (aiPassCount (upscale_frame 9 ⟨480, 640⟩).2 = (pyInt ((9:ℚ) / 4)).toNat ∧
     resizeCount (upscale_frame 9 ⟨480, 640⟩).2 =
       (if 1/100 < |(9:ℚ) / 4 ^ (pyInt ((9:ℚ) / 4)).toNat - 1| then 1 else 0)) :=
  ⟨by norm_num, c1_bigscale_pass_count 9 ⟨480, 640⟩ (by norm_num)⟩

/-- C5 (amended): for `0 < s < 1` the per-frame work is exactly one Lanczos
resize to `(int(w*s), int(h*s))` (truncation, not rounding), no AI pass, and
`use_ai` is false so no model is loaded at all. -/
theorem c5_downscale_plan (s : ℚ) (d : Dims) (h0 : 0 < s) (h1 : s < 1) :
    upscale_frame s d =
      (⟨pyInt (d.h * s), pyInt (d.w * s)⟩,
       [FrameOp.resizeTo (pyInt (d.w * s)) (pyInt (d.h * s)) Filter.lanczos4]) ∧
    use_ai s = false := by
  refine ⟨by rw [upscale_frame, if_pos h1], ?_⟩
  simp only [use_ai, decide_eq_false_iff_not, not_le]
  linarith

/-- C5 counterexample: on a 2×2 frame at scale 0.75 the code yields a 1×1
output (`int(2*0.75) = int(1.5) = 1`), while the claimed `round(input × s)`
gives 2 (`round(1.5) = 2`); the claim's output dimensions are false. -/
theorem c5_counterexample_round :
    (upscale_frame (3/4) ⟨2, 2⟩).1 = ⟨1, 1⟩ ∧ pyRound (2 * (3/4)) = 2 := by
  constructor
  · rw [upscale_frame, if_pos (by norm_num)]
    norm_num [pyInt]
  · rw [pyRound]
    norm_num

/-- Witness for `c5_downscale_plan` at scale 1/2 on a 640×480 frame. -/
theorem c5_witness :
    ((0:ℚ) < 1/2 ∧ (1/2:ℚ) < 1) ∧
    (upscale_frame (1/2) ⟨480, 640⟩ =
      (⟨pyInt ((480:ℤ) * (1/2)), pyInt ((640:ℤ) * (1/2))⟩,
       [FrameOp.resizeTo (pyInt ((640:ℤ) * (1/2))) (pyInt ((480:ℤ) * (1/2)))
          Filter.lanczos4]) ∧
     use_ai (1/2) = false) :=
  ⟨⟨by norm_num, by norm_num⟩,
   c5_downscale_plan (1/2) ⟨480, 640⟩ (by norm_num) (by norm_num)⟩

/-- C6: for every requested scale within 0.001 of a native model scale (2 or
4), the per-frame plan is exactly one AI enhancer application and zero resize
steps (exact hits use the direct branch; near hits land in the hybrid branch
whose 0.01 resize tolerance absorbs a deviation of at most 0.001). -/
theorem c6_native_scale_plan (s : ℚ) (d : Dims)
    (h : |s - 2| ≤ 1/1000 ∨ |s - 4| ≤ 1/1000) :
    aiPassCount (upscale_frame s d).2 = 1 ∧
    resizeCount (upscale_frame s d).2 = 0 := by
  rcases h with h | h <;> rw [abs_le] at h <;> obtain ⟨hl, hr⟩ := h
  · by_cases he : s = 2
    · subst he
      rw [upscale_frame, if_neg (by norm_num), if_neg (by norm_num), if_pos rfl]
      exact ⟨rfl, rfl⟩
    · have h1 : ¬ s < 1 := by intro hc; simp at hl; linarith
      have h2 : ¬ s < 3/2 := by intro hc; simp at hl; linarith
      have h4 : ¬ s = 4 := by intro e; rw [e] at hr; norm_num at hr
      have h8 : ¬ 8 ≤ s := by intro hc; simp at hr; linarith
      rw [upscale_frame, if_neg h1, if_neg h2, if_neg he, if_neg h4, if_neg h8]
      simp only [hybridPass]
      have hms : ai_model_scale s = 2 := by
        rw [ai_model_scale, if_neg]
        intro hc
        simp at hr
        linarith
      rw [hms]
      have hno : ¬ (1/100 < |s / (2:ℕ) - 1|) := by
        rw [not_lt, abs_le]
        push_cast
        constructor <;> [linarith; linarith]
      rw [if_neg hno]
      exact ⟨rfl, rfl⟩
  · by_cases he : s = 4
    · subst he
      rw [upscale_frame, if_neg (by norm_num), if_neg (by norm_num),
        if_neg (by norm_num), if_pos rfl]
      exact ⟨rfl, rfl⟩
    · have h1 : ¬ s < 1 := by intro hc; simp at hl; linarith
      have h2 : ¬ s < 3/2 := by intro hc; simp at hl; linarith
      have h3 : ¬ s = 2 := by intro e; rw [e] at hl; norm_num at hl
      have h8 : ¬ 8 ≤ s := by intro hc; simp at hr; linarith
      rw [upscale_frame, if_neg h1, if_neg h2, if_neg h3, if_neg he, if_neg h8]
      simp only [hybridPass]
      have hms : ai_model_scale s = 4 := by
        rw [ai_model_scale, if_pos]
        simp at hl
        linarith
      rw [hms]
      have hno : ¬ (1/100 < |s / (4:ℕ) - 1|) := by
        rw [not_lt, abs_le]
        push_cast
        constructor <;> [linarith; linarith]
      rw [if_neg hno]
      exact ⟨rfl, rfl⟩

/-- Witness for `c6_native_scale_plan` at the exact native scale 2. -/
theorem c6_witness :
    (|(2:ℚ) - 2| ≤ 1/1000 ∨ |(2:ℚ) - 4| ≤ 1/1000) ∧
    (aiPassCount (upscale_frame 2 ⟨480, 640⟩).2 = 1 ∧
     resizeCount (upscale_frame 2 ⟨480, 640⟩).2 = 0) :=
  ⟨Or.inl (by norm_num), c6_native_scale_plan 2 ⟨480, 640⟩ (Or.inl (by norm_num))⟩

/-! ## Output-resolution validation (`upscale_video`, lines 138-147) -/

/-- `output_megapixels = (output_width * output_height) / (1024 * 1024)`. -/
def output_megapixels (w h : ℤ) : ℚ := ((w * h : ℤ) : ℚ) / (1024 * 1024)

/-- `max_megapixels = 33.2` (the source comment says "8K = 7680x4320 =
33.2 MP", but the code divides by 1024·1024, so the effective pixel ceiling
is 33.2·2²⁰ ≈ 34.81 million pixels, about 4.9% above 7680·4320). -/
def max_megapixels : ℚ := 332/10

/-- `upscale_video` raises `ValueError` (failing the run) iff
`output_megapixels > max_megapixels`. -/
def resolution_rejected (w h : ℤ) : Bool :=
  decide (max_megapixels < output_megapixels w h)

theorem resolution_rejected_iff (w h : ℤ) :
    resolution_rejected w h = true ↔ (34812723 : ℤ) < w * h := by
  rw [resolution_rejected, decide_eq_true_eq, max_megapixels, output_megapixels,
    div_lt_div_iff₀ (by norm_num) (by norm_num)]
  have hcast : ((332 : ℚ) * (1024 * 1024) < ((w * h : ℤ) : ℚ) * 10) ↔
      ((332 * (1024 * 1024) : ℤ) < (w * h) * 10) := by
    constructor <;> intro hx <;> exact_mod_cast hx
  rw [hcast]
  omega

theorem resolution_rejected_eq_false (w h : ℤ) (hle : w * h ≤ 34812723) :
    resolution_rejected w h = false := by
  rcases Bool.eq_false_or_eq_true (resolution_rejected w h) with hb | hb
  · have := (resolution_rejected_iff w h).mp hb
    omega
  · exact hb

/-- C2 (amended): the output-resolution validation in `upscale_video` depends
only on the total pixel count, never on a single dimension; 7680×4320 passes,
portrait 3296×5856 passes, but one pixel more than 7680×4320 ALSO passes —
the run is rejected exactly when the pixel count exceeds 33.2·2²⁰, i.e. is at
least 34 812 724. -/
theorem c2_resolution_ceiling_total_pixels :
    (∀ w h w2 h2 : ℤ, w * h = w2 * h2 →
        resolution_rejected w h = resolution_rejected w2 h2) ∧
    resolution_rejected 7680 4320 = false ∧
    resolution_rejected 3296 5856 = false ∧
    (∀ w h : ℤ, resolution_rejected w h = true ↔ (34812723 : ℤ) < w * h) := by
  refine ⟨?_, ?_, ?_, resolution_rejected_iff⟩
  · intro w h w2 h2 hp
    rw [resolution_rejected, resolution_rejected, output_megapixels,
      output_megapixels, hp]
  · exact resolution_rejected_eq_false _ _ (by norm_num)
  · exact resolution_rejected_eq_false _ _ (by norm_num)

/-- C2 counterexample: a candidate output with exactly one pixel more than
7680×4320 (33 177 601 pixels; a prime, so realized as a 33177601×1 shape —
the check only ever sees the product) is NOT rejected by the validation,
contradicting the claim that one pixel over 7680×4320 fails the run. -/
theorem c2_counterexample_one_pixel_over :
    resolution_rejected 33177601 1 = false ∧
    (33177601 : ℤ) = 7680 * 4320 + 1 := by
  exact ⟨resolution_rejected_eq_false _ _ (by norm_num), by norm_num⟩

/-! ## Temporal interpolator (`src/processors/temporal_interpolator.py`,
`src/models/rife_model.py`) -/

/-- Python exceptions that can arise in the embedded fragments. -/
inductive PyErr where
  | attributeError
  | valueError
  | zeroDivisionError
  | indexError
  | ioError
deriving DecidableEq

/-- The object bound to `self.model` in `TemporalInterpolator`. -/
inductive InterpModelKind where
  | rifeWrapper
  | simpleCv
deriving DecidableEq

/-- Attribute lookup: `RIFEModel` defines `interpolate_frames`;
`SimpleFrameInterpolator` defines only `interpolate` and
`interpolate_sequence` (no `interpolate_frames`). -/
def hasInterpolateFrames : InterpModelKind → Bool
  | .rifeWrapper => true
  | .simpleCv => false

/-- The `model_name` argument of `TemporalInterpolator`. -/
inductive ModelChoice where
  | rife
  | simpleName
  | unknownName
deriving DecidableEq

/-- `TemporalInterpolator._load_model`: 'rife' loads the RIFE wrapper (which
itself falls back internally to optical-flow interpolation but keeps the
`interpolate_frames` interface); 'simple' binds `SimpleFrameInterpolator`;
any failure or unknown name is caught and also falls back to
`SimpleFrameInterpolator`. -/
def load_model : ModelChoice → Bool → InterpModelKind
  | .rife, creationFails => if creationFails then .simpleCv else .rifeWrapper
  | .simpleName, _ => .simpleCv
  | .unknownName, _ => .simpleCv

/-- An output frame: a source frame by index, or a frame interpolated
between sources `a` and `a+1` at timestep `t ∈ (0,1)`. -/
inductive IFrame where
  | src (i : ℕ)
  | mid (a b : ℕ) (t : ℚ)
deriving DecidableEq

/-- `RIFEModel.interpolate_frames` / `_simple_interpolation` with
`timestep=None`: `num` frames at evenly spaced timesteps
`(i+1)/(num_intermediates+1)`. -/
def interpolate_frames (a b : ℕ) (num : ℕ) : List IFrame :=
  (List.range num).map (fun j => IFrame.mid a b (((j+1 : ℕ) : ℚ) / ((num+1 : ℕ) : ℚ)))

/-- Calling `self.model.interpolate_frames(...)`: on the fallback
`SimpleFrameInterpolator` the attribute does not exist, so the call raises
`AttributeError`. -/
def callInterpolateFrames (mk : InterpModelKind) (a b num : ℕ) :
    Except PyErr (List IFrame) :=
  match mk with
  | .rifeWrapper => .ok (interpolate_frames a b num)
  | .simpleCv => .error .attributeError

/-- The frame-pair loop of `interpolate_video` (`for i in
range(len(frames) - 1)`): write `frames[i]`, then, if the multiplier exceeds
1, write the `actual_multiplier - 1` interpolated frames; the accumulator is
the ordered list of frames written so far. -/
def interpPairsLoop (mk : InterpModelKind) (mult : ℤ) :
    ℕ → ℕ → List IFrame → Except PyErr (List IFrame)
  | _, 0, st => .ok st
  | i, k+1, st =>
    if 1 < mult then
      match callInterpolateFrames mk i (i+1) (mult - 1).toNat with
      | .error e => .error e
      | .ok interpolated =>
        interpPairsLoop mk mult (i+1) k ((st ++ [IFrame.src i]) ++ interpolated)
    else
      interpPairsLoop mk mult (i+1) k (st ++ [IFrame.src i])

/-- The I/O steps of `interpolate_video` that can fail independently of the
frame math: opening the input, opening the `VideoWriter`, and the
`shutil.copy` of the no-interpolation path. -/
structure IOEnv where
  openInput : Except PyErr Unit
  openWriter : Except PyErr Unit
  copyFile : Except PyErr Unit

/-- The environment of a run in which all I/O succeeds. -/
def ioBenign : IOEnv := ⟨.ok (), .ok (), .ok ()⟩

/-- The result dict of `interpolate_video`: a failure record
(`success=False`, `error`, `output_path=None`), the copy path
(`success=True`, `new_fps = original_fps`, input copied unchanged), or a
normal run (`success=True`, `new_fps = target_fps`,
`metrics.fps_multiplier = actual_multiplier`, written frames). -/
inductive InterpOutcome where
  | failed (e : PyErr)
  | copied (originalFps newFps : ℚ)
  | interpolated (newFps : ℚ) (mult : ℤ) (frames : List IFrame)
deriving DecidableEq

/-- Python `a / b` on floats: raises `ZeroDivisionError` on `b = 0`. -/
def pyDiv (a b : ℚ) : Except PyErr ℚ :=
  if b = 0 then .error .zeroDivisionError else .ok (a / b)

/-- Body of `TemporalInterpolator.interpolate_video` (the part inside the
`try`), transcribed step for step: target-FPS defaulting and the 240 cap,
`actual_multiplier = int(round(target_fps / original_fps))`, the `< 2` copy
path, and the frame-pair loop followed by writing `frames[-1]`. -/
def interpolate_video_body (env : IOEnv) (mk : InterpModelKind) (n : ℕ)
    (fps : ℚ) (fps_multiplier : ℕ) (target_fps? : Option ℚ) :
    Except PyErr InterpOutcome :=
  match env.openInput with
  | .error e => .error e
  | .ok _ =>
    let target0 := target_fps?.getD (fps * (fps_multiplier : ℚ))
    let capped : Except PyErr ℚ :=
      if 240 < target0 then
        match pyDiv 240 fps with    -- `fps_multiplier = int(240 / original_fps)`
        | .error e => .error e
        | .ok _ => .ok 240
      else .ok target0
    match capped with
    | .error e => .error e
    | .ok targetFps =>
      match pyDiv targetFps fps with
      | .error e => .error e
      | .ok q =>
        let actual := pyRound q     -- `int(round(target_fps / original_fps))`
        if actual < 2 then
          match env.copyFile with   -- `shutil.copy(input_path, output_path)`
          | .error e => .error e
          | .ok _ => .ok (InterpOutcome.copied fps fps)
        else
          match env.openWriter with
          | .error e => .error e
          | .ok _ =>
            match interpPairsLoop mk actual 0 (n - 1) [] with
            | .error e => .error e
            | .ok st =>
              match n with
              | 0 => .error PyErr.indexError   -- `frames[-1]` on an empty list
              | k+1 => .ok (InterpOutcome.interpolated targetFps actual
                  (st ++ [IFrame.src k]))

/-- `TemporalInterpolator.interpolate_video`: the whole body runs inside
`try: ... except Exception as e: return {success: False, ...}`. -/
def interpolate_video (env : IOEnv) (mk : InterpModelKind) (n : ℕ) (fps : ℚ)
    (fps_multiplier : ℕ) (target_fps? : Option ℚ) : InterpOutcome :=
  match interpolate_video_body env mk n fps fps_multiplier target_fps? with
  | .ok r => r
  | .error e => .failed e

def InterpOutcome.success : InterpOutcome → Bool
  | .failed _ => false
  | .copied _ _ => true
  | .interpolated _ _ _ => true

/-- `output_path` of the result dict: `None` on failure, the declared output
path otherwise. -/
def InterpOutcome.outputPathPresent : InterpOutcome → Bool
  | .failed _ => false
  | .copied _ _ => true
  | .interpolated _ _ _ => true

def InterpOutcome.errorDesc : InterpOutcome → Option PyErr
  | .failed e => some e
  | .copied _ _ => none
  | .interpolated _ _ _ => none

def InterpOutcome.newFps : InterpOutcome → Option ℚ
  | .failed _ => none
  | .copied _ nf => some nf
  | .interpolated nf _ _ => some nf

/-- `metrics['fps_multiplier']` (present only on the normal path). -/
def InterpOutcome.multMetric : InterpOutcome → Option ℤ
  | .interpolated _ m _ => some m
  | _ => none

/-- The expansion exactly as the claim words it: for each consecutive pair
`(i, i+1)` in order, emit frame `i` and then `m - 1` interpolated frames at
evenly spaced timesteps `t = (j+1)/m`, `j ∈ [0, m-2]`. -/
def claimedPairBlocks (m : ℕ) : ℕ → ℕ → List IFrame
  | _, 0 => []
  | i, k+1 =>
    (IFrame.src i :: (List.range (m-1)).map
        (fun j => IFrame.mid i (i+1) (((j+1 : ℕ) : ℚ) / (m : ℚ))))
      ++ claimedPairBlocks m (i+1) k

/-- The claim's full output: the pair blocks for the first `n-1` source
frames, then the final source frame exactly once. -/
def claimedExpansion (n m : ℕ) : List IFrame :=
  claimedPairBlocks m 0 (n-1) ++ [IFrame.src (n-1)]

theorem interpolate_frames_eq (a b m : ℕ) (hm : 1 ≤ m) :
    interpolate_frames a b (m-1) =
      (List.range (m-1)).map
        (fun j => IFrame.mid a b (((j+1 : ℕ) : ℚ) / (m : ℚ))) := by
  rw [interpolate_frames, Nat.sub_add_cancel hm]

/-- What the frame-pair loop of `interpolate_video` produces for each pair
when the model is the RIFE wrapper (arbitrary integer multiplier). -/
def rifeBlocks (mult : ℤ) : ℕ → ℕ → List IFrame
  | _, 0 => []
  | i, k+1 =>
    (IFrame.src i :: interpolate_frames i (i+1) (mult-1).toNat)
      ++ rifeBlocks mult (i+1) k

theorem interpPairsLoop_rife_ok (mult : ℤ) (hlt : 1 < mult) :
    ∀ (k i : ℕ) (st : List IFrame),
      interpPairsLoop .rifeWrapper mult i k st =
        .ok (st ++ rifeBlocks mult i k) := by
  intro k
  induction k with
  | zero =>
    intro i st
    simp [interpPairsLoop, rifeBlocks]
  | succ kk ih =>
    intro i st
    simp only [interpPairsLoop, if_pos hlt, callInterpolateFrames]
    rw [ih]
    simp [rifeBlocks, List.append_assoc]

theorem interpPairsLoop_simple_err (mult : ℤ) (hlt : 1 < mult) (i k : ℕ)
    (st : List IFrame) :
    interpPairsLoop .simpleCv mult i (k+1) st = .error .attributeError := by
  simp only [interpPairsLoop, if_pos hlt, callInterpolateFrames]

theorem rifeBlocks_eq_claimed (m : ℕ) (hm : 2 ≤ m) :
    ∀ (k i : ℕ), rifeBlocks (m : ℤ) i k = claimedPairBlocks m i k := by
  intro k
  induction k with
  | zero => intro i; rfl
  | succ kk ih =>
    intro i
    have htn : ((m : ℤ) - 1).toNat = m - 1 := by omega
    rw [rifeBlocks, claimedPairBlocks, htn,
      interpolate_frames_eq i (i+1) m (by omega), ih]

theorem claimedPairBlocks_length (m : ℕ) (hm : 1 ≤ m) :
    ∀ (k i : ℕ), (claimedPairBlocks m i k).length = k * m := by
  intro k
  induction k with
  | zero => intro i; simp [claimedPairBlocks]
  | succ kk ih =>
    intro i
    rw [claimedPairBlocks, List.length_append, ih]
    simp only [List.length_cons, List.length_map, List.length_range]
    rw [Nat.sub_add_cancel hm, Nat.succ_mul]
    exact Nat.add_comm m (kk * m)

theorem pyRound_natCast (m : ℕ) : pyRound (m : ℚ) = (m : ℤ) := by
  rw [pyRound, Int.floor_natCast]
  rw [if_pos (by push_cast; norm_num)]

/-- C4: for `n ≥ 2` source frames and effective multiplier `m ≥ 2` (with all
I/O succeeding and the primary interpolator loaded), `interpolate_video`
writes exactly the claimed expansion — each of the first `n-1` source frames
once, followed by `m-1` interpolated frames at timesteps `(j+1)/m`, then the
final source frame once — for a total of `(n-1)·m + 1` frames. -/
theorem c4_expansion_contract (n m : ℕ) (fps : ℚ) (hn : 2 ≤ n) (hm : 2 ≤ m)
    (hfps : 0 < fps) (hcap : fps * (m : ℚ) ≤ 240) :
    interpolate_video ioBenign .rifeWrapper n fps m none =
      InterpOutcome.interpolated (fps * (m : ℚ)) (m : ℤ) (claimedExpansion n m) ∧
    (claimedExpansion n m).length = (n - 1) * m + 1 := by
  constructor
  · obtain ⟨k, rfl⟩ : ∃ k, n = k + 1 := ⟨n - 1, by omega⟩
    have hq : fps * ((m : ℕ) : ℚ) / fps = ((m : ℕ) : ℚ) := by field_simp
    have hm2 : ¬ ((m : ℤ) < 2) := by exact_mod_cast not_lt.mpr hm
    have hmlt : (1 : ℤ) < (m : ℤ) := by exact_mod_cast hm
    simp only [interpolate_video, interpolate_video_body, ioBenign,
      Option.getD_none, if_neg (not_lt.mpr hcap), pyDiv,
      if_neg (ne_of_gt hfps), hq, pyRound_natCast, if_neg hm2,
      interpPairsLoop_rife_ok (m : ℤ) hmlt, Nat.add_sub_cancel,
      List.nil_append, rifeBlocks_eq_claimed m hm, claimedExpansion]
  · rw [claimedExpansion, List.length_append,
      claimedPairBlocks_length m (by omega) (n-1) 0]
    rfl

/-- Witness for `c4_expansion_contract`: 2 frames at 30 fps, multiplier 2. -/
theorem c4_witness :
    ((2:ℕ) ≤ 2 ∧ (0:ℚ) < 30 ∧ (30:ℚ) * (2:ℕ) ≤ 240) ∧
    (interpolate_video ioBenign .rifeWrapper 2 30 2 none =
       InterpOutcome.interpolated (30 * (2:ℕ)) ((2:ℕ) : ℤ) (claimedExpansion 2 2) ∧
     (claimedExpansion 2 2).length = (2 - 1) * 2 + 1) :=
  ⟨⟨le_refl 2, by norm_num, by norm_num⟩,
   c4_expansion_contract 2 2 30 (le_refl 2) (le_refl 2) (by norm_num) (by norm_num)⟩

/-- C3: with the fallback `SimpleFrameInterpolator` substituted at load time
(here: `model_name='simple'`), `interpolate_video` does NOT satisfy the
expansion contract: the loop's call to `self.model.interpolate_frames`
raises `AttributeError` (the fallback class has no such method), the run is
converted to a failure record, and no expansion is produced — while the
same input under the primary wrapper yields the contractual
`(n-1)·m + 1 = 3` frames. -/
theorem c3_fallback_breaks_contract :
    interpolate_video ioBenign (load_model .simpleName false) 2 30 2 none =
      InterpOutcome.failed PyErr.attributeError ∧
    hasInterpolateFrames (load_model .simpleName false) = false ∧
    interpolate_video ioBenign .rifeWrapper 2 30 2 none =
      InterpOutcome.interpolated 60 2
        [IFrame.src 0, IFrame.mid 0 1 (1/2), IFrame.src 1] := by
  have hq : (30 : ℚ) * ((2 : ℕ) : ℚ) / 30 = ((2 : ℕ) : ℚ) := by norm_num
  have herr : interpPairsLoop .simpleCv ((2:ℕ) : ℤ) 0 1 [] =
      .error .attributeError :=
    interpPairsLoop_simple_err _ (by norm_num) 0 0 []
  have hok : interpPairsLoop .rifeWrapper ((2:ℕ) : ℤ) 0 1 [] =
      .ok ([] ++ rifeBlocks ((2:ℕ) : ℤ) 0 1) :=
    interpPairsLoop_rife_ok _ (by norm_num) 1 0 []
  refine ⟨?_, rfl, ?_⟩
  · simp only [load_model, interpolate_video, interpolate_video_body, ioBenign,
      Option.getD_none, if_neg (show ¬ ((240:ℚ) < 30 * ((2:ℕ):ℚ)) by norm_num),
      pyDiv, if_neg (show ¬ ((30:ℚ) = 0) by norm_num), hq, pyRound_natCast,
      if_neg (show ¬ (((2:ℕ):ℤ) < 2) by norm_num), herr]
  · simp only [interpolate_video, interpolate_video_body, ioBenign,
      Option.getD_none, if_neg (show ¬ ((240:ℚ) < 30 * ((2:ℕ):ℚ)) by norm_num),
      pyDiv, if_neg (show ¬ ((30:ℚ) = 0) by norm_num), hq, pyRound_natCast,
      if_neg (show ¬ (((2:ℕ):ℤ) < 2) by norm_num), hok]
    rw [show (30:ℚ) * ((2:ℕ):ℚ) = 60 by norm_num]
    simp only [rifeBlocks, interpolate_frames, List.nil_append,
      show ((((2:ℕ):ℤ)) - 1).toNat = 1 by omega]
    rw [show List.range 1 = [0] from rfl]
    norm_num

/-- Shared evaluation of a capped `interpolate_video` run: when no explicit
target FPS is given and `fps · m > 240`, the target is capped at 240 and the
effective multiplier becomes `int(round(240 / fps))`; below 2 the input is
copied (reporting the original FPS), otherwise the interpolation runs with
that multiplier and reports 240. -/
theorem interp_capped_run (n m : ℕ) (fps : ℚ) (hfps : 0 < fps)
    (hover : 240 < fps * ((m : ℕ) : ℚ)) :
    (pyRound (240 / fps) < 2 →
      interpolate_video ioBenign .rifeWrapper n fps m none =
        InterpOutcome.copied fps fps) ∧
    (1 < pyRound (240 / fps) → 1 ≤ n →
      interpolate_video ioBenign .rifeWrapper n fps m none =
        InterpOutcome.interpolated 240 (pyRound (240 / fps))
          (rifeBlocks (pyRound (240 / fps)) 0 (n-1) ++ [IFrame.src (n-1)])) := by
  constructor
  · intro h2
    simp only [interpolate_video, interpolate_video_body, ioBenign,
      Option.getD_none, if_pos hover, pyDiv, if_neg (ne_of_gt hfps),
      if_pos h2]
  · intro hgt hn
    obtain ⟨k, rfl⟩ : ∃ k, n = k + 1 := ⟨n - 1, by omega⟩
    simp only [interpolate_video, interpolate_video_body, ioBenign,
      Option.getD_none, if_pos hover, pyDiv, if_neg (ne_of_gt hfps),
      if_neg (show ¬ (pyRound (240 / fps) < 2) by omega),
      interpPairsLoop_rife_ok (pyRound (240 / fps)) hgt,
      Nat.add_sub_cancel, List.nil_append]

/-- C10 (amended): with no explicit target FPS and `fps · multiplier > 240`,
the target FPS is silently capped at 240 and the effective multiplier is
`int(round(240 / fps))` (banker's rounding — NOT `int(240 / fps)`); when it
is ≥ 2 the run succeeds with `new_fps = 240` and reports that multiplier,
and when it falls below 2 the input file is copied unchanged and the run
succeeds with `new_fps = original_fps`. -/
theorem c10_cap_and_round (n m : ℕ) (fps : ℚ) (hfps : 0 < fps)
    (hover : 240 < fps * ((m : ℕ) : ℚ)) (hn : 1 ≤ n) :
    (pyRound (240 / fps) < 2 →
      interpolate_video ioBenign .rifeWrapper n fps m none =
        InterpOutcome.copied fps fps) ∧
    (2 ≤ pyRound (240 / fps) →
      (interpolate_video ioBenign .rifeWrapper n fps m none).success = true ∧
      (interpolate_video ioBenign .rifeWrapper n fps m none).newFps = some 240 ∧
      (interpolate_video ioBenign .rifeWrapper n fps m none).multMetric =
        some (pyRound (240 / fps))) := by
  obtain ⟨hlo, hhi⟩ := interp_capped_run n m fps hfps hover
  refine ⟨hlo, fun hge => ?_⟩
  rw [hhi (by omega) hn]
  exact ⟨rfl, rfl, rfl⟩

/-- C10 counterexample: (a) at `original_fps = 90`, `multiplier = 3`
(target 270 → capped 240) the run's reported multiplier is
`round(240/90) = 3`, not the claimed `int(240/90) = 2`; (b) at
`original_fps = 200`, `multiplier = 2` (target 400 → capped 240) the
recomputed multiplier falls below 2, the input is copied, and the run
reports `new_fps = 200`, not the claimed 240. -/
theorem c10_counterexample :
    ((interpolate_video ioBenign .rifeWrapper 2 90 3 none).multMetric =
        some 3 ∧
     pyInt ((240:ℚ) / 90) = 2) ∧
    (interpolate_video ioBenign .rifeWrapper 2 200 2 none =
        InterpOutcome.copied 200 200 ∧
     (interpolate_video ioBenign .rifeWrapper 2 200 2 none).newFps =
        some 200) := by
  have h3 : pyRound ((240:ℚ) / 90) = 3 := by
    rw [pyRound]
    norm_num
  have h1 : pyRound ((240:ℚ) / 200) = 1 := by
    rw [pyRound]
    norm_num
  have hrun1 := (interp_capped_run 2 3 90 (by norm_num) (by norm_num)).2
    (by rw [h3]; norm_num) (by norm_num)
  have hrun2 := (interp_capped_run 2 2 200 (by norm_num) (by norm_num)).1
    (by rw [h1]; norm_num)
  refine ⟨⟨?_, ?_⟩, hrun2, ?_⟩
  · rw [hrun1, h3]
    rfl
  · rw [pyInt, if_pos (by norm_num)]
    norm_num
  · rw [hrun2]
    rfl

/-- Witness for `c10_cap_and_round` at 90 fps, multiplier 3, 2 frames. -/
theorem c10_witness :
    ((0:ℚ) < 90 ∧ (240:ℚ) < 90 * ((3:ℕ) : ℚ) ∧ (1:ℕ) ≤ 2) ∧
    ((pyRound ((240:ℚ) / 90) < 2 →
       interpolate_video ioBenign .rifeWrapper 2 90 3 none =
         InterpOutcome.copied 90 90) ∧
     (2 ≤ pyRound ((240:ℚ) / 90) →
       (interpolate_video ioBenign .rifeWrapper 2 90 3 none).success = true ∧
       (interpolate_video ioBenign .rifeWrapper 2 90 3 none).newFps =
         some 240 ∧
       (interpolate_video ioBenign .rifeWrapper 2 90 3 none).multMetric =
         some (pyRound ((240:ℚ) / 90)))) :=
  ⟨⟨by norm_num, by norm_num, by norm_num⟩,
   c10_cap_and_round 2 3 90 (by norm_num) (by norm_num) (by norm_num)⟩

/-! ## `upscale_video` orchestration and the error boundary (C7) -/

/-- The effectful steps of `upscale_video` abstracted as oracles: opening the
input and reading metadata (frame dimensions), opening the `VideoWriter`, and
the per-frame enhance+write steps, any of which may raise. -/
structure UpscaleEnv where
  inputMeta : Except PyErr Dims
  writerOpen : Except PyErr Unit
  frameSteps : List (Except PyErr Unit)

/-- The frame loop of `upscale_video`: stops at the first raising step,
otherwise counts the processed frames. -/
def runFrames : List (Except PyErr Unit) → Except PyErr ℕ
  | [] => .ok 0
  | step :: rest =>
    match step with
    | .error e => .error e
    | .ok _ =>
      match runFrames rest with
      | .error e => .error e
      | .ok k => .ok (k+1)

/-- The result dict of `upscale_video`: either a success record (output path,
metrics with frames processed, output resolution, scale factor) or a failure
record (`success=False`, `error`, `output_path=None`). -/
inductive UpscaleOutcome where
  | ok (framesProcessed : ℕ) (outputW outputH : ℤ) (scale : ℚ)
  | failed (e : PyErr)
deriving DecidableEq

/-- Body of `SpatialUpscaler.upscale_video` (inside the `try`): read the
metadata, compute `int(width*scale) × int(height*scale)`, raise `ValueError`
if the megapixel validation rejects it, open the writer, run the frame loop,
and build the success record. -/
def upscale_video_body (scale : ℚ) (env : UpscaleEnv) :
    Except PyErr UpscaleOutcome :=
  match env.inputMeta with
  | .error e => .error e
  | .ok d =>
    let ow := pyInt (d.w * scale)
    let oh := pyInt (d.h * scale)
    if resolution_rejected ow oh then .error PyErr.valueError
    else
      match env.writerOpen with
      | .error e => .error e
      | .ok _ =>
        match runFrames env.frameSteps with
        | .error e => .error e
        | .ok cnt => .ok (UpscaleOutcome.ok cnt ow oh scale)

/-- `SpatialUpscaler.upscale_video`: the whole body runs inside
`try: ... except Exception as e: return {success: False, ...}`. -/
def upscale_video (scale : ℚ) (env : UpscaleEnv) : UpscaleOutcome :=
  match upscale_video_body scale env with
  | .ok r => r
  | .error e => .failed e

def UpscaleOutcome.success : UpscaleOutcome → Bool
  | .ok _ _ _ _ => true
  | .failed _ => false

/-- `output_path` of the result dict: the declared path on success, `None` on
failure. -/
def UpscaleOutcome.outputPathPresent : UpscaleOutcome → Bool
  | .ok _ _ _ _ => true
  | .failed _ => false

def UpscaleOutcome.errorDesc : UpscaleOutcome → Option PyErr
  | .ok _ _ _ _ => none
  | .failed e => some e

/-- C7: for every input and environment (arbitrary success/failure of each
internal step), both public entry points return a structured result record
and never re-raise: success records carry the output path and no error,
failure records carry an error description and `output_path = None`.  Both
entry points are total functions of their environment — every internal
`Except.error` is absorbed by the `try/except` boundary `match`. -/
theorem c7_structured_results_no_raise :
    (∀ (scale : ℚ) (env : UpscaleEnv),
      ((upscale_video scale env).success = true ∧
       (upscale_video scale env).outputPathPresent = true ∧
       (upscale_video scale env).errorDesc = none) ∨
      ((upscale_video scale env).success = false ∧
       (upscale_video scale env).outputPathPresent = false ∧
       (upscale_video scale env).errorDesc.isSome = true)) ∧
    (∀ (env : IOEnv) (mk : InterpModelKind) (n : ℕ) (fps : ℚ)
       (fm : ℕ) (tf : Option ℚ),
      ((interpolate_video env mk n fps fm tf).success = true ∧
       (interpolate_video env mk n fps fm tf).outputPathPresent = true ∧
       (interpolate_video env mk n fps fm tf).errorDesc = none) ∨
      ((interpolate_video env mk n fps fm tf).success = false ∧
       (interpolate_video env mk n fps fm tf).outputPathPresent = false ∧
       (interpolate_video env mk n fps fm tf).errorDesc.isSome = true)) := by
  constructor
  · intro scale env
    cases hval : upscale_video scale env with
    | ok cnt ow oh sc => exact Or.inl ⟨rfl, rfl, rfl⟩
    | failed e => exact Or.inr ⟨rfl, rfl, rfl⟩
  · intro env mk n fps fm tf
    cases hval : interpolate_video env mk n fps fm tf with
    | failed e => exact Or.inr ⟨rfl, rfl, rfl⟩
    | copied ofps nfps => exact Or.inl ⟨rfl, rfl, rfl⟩
    | interpolated nfps mult frames => exact Or.inl ⟨rfl, rfl, rfl⟩

/-! ## Resource settings adjustment (`src/utils/system_manager.py`, C9) -/

inductive DeviceKind where
  | cpu
  | cuda
deriving DecidableEq

inductive TemporalMethod where
  | emaFilter
  | opticalFlow
deriving DecidableEq

/-- The `optimal_settings` dict of `SystemManager` (the `recommended_model`
key is the constant 'realesrgan' throughout and is omitted; all remaining
values are scalars, so Python's shallow `dict.copy()` is a full copy). -/
structure Settings where
  device : DeviceKind
  batch_size : ℕ
  use_fp16 : Bool
  max_scale_factor : ℕ
  enable_temporal_coherence : Bool
  temporal_method : TemporalMethod
  tile_size : ℕ
deriving DecidableEq

/-- The base dict built at the top of `_calculate_optimal_settings`. -/
def baseSettings : Settings :=
  ⟨DeviceKind.cpu, 1, false, 2, false, TemporalMethod.emaFilter, 256⟩

/-- Mutable Python dicts modelled as heap cells; a reference is an index into
`cells`, and `cached` is the reference held by `self.optimal_settings`. -/
structure SettingsHeap where
  cells : List Settings
  cached : ℕ

/-- In-place mutation of the dict at reference `r` (`adjusted[key] = ...`). -/
def listUpdate (l : List Settings) (r : ℕ) (f : Settings → Settings) :
    List Settings :=
  l.set r (f (l.getD r baseSettings))

/-- `SystemManager.adjust_for_video`: copies `self.optimal_settings` into a
fresh dict, raises `ValueError` when a single output dimension exceeds
7680×4320, halves the copy's batch size above 4K pixels, and clamps the copy
to batch 1 / tile ≤ 256 above half of 8K (`7680*4320/2 = 16588800`) — all
writes go to the fresh reference, never to the cached one. -/
def adjust_for_video (st : SettingsHeap) (w h scale : ℕ) :
    SettingsHeap × Except PyErr ℕ :=
  let ow := w * scale
  let oh := h * scale
  let adjustedRef := st.cells.length
  let cells0 := st.cells ++ [st.cells.getD st.cached baseSettings]
  if 7680 < ow ∨ 4320 < oh then
    (⟨cells0, st.cached⟩, .error PyErr.valueError)
  else
    let cells1 :=
      if 3840 * 2160 < ow * oh then
        listUpdate cells0 adjustedRef
          (fun s => { s with batch_size := max 1 (s.batch_size / 2) })
      else cells0
    let cells2 :=
      if 16588800 < ow * oh then
        listUpdate cells1 adjustedRef
          (fun s => { s with batch_size := 1, tile_size := min s.tile_size 256 })
      else cells1
    (⟨cells2, st.cached⟩, .ok adjustedRef)

theorem listUpdate_preserves (l : List Settings) (r i : ℕ) (hne : r ≠ i)
    (f : Settings → Settings) : (listUpdate l r f)[i]? = l[i]? :=
  List.getElem?_set_ne hne

theorem listUpdate_length (l : List Settings) (r : ℕ) (f : Settings → Settings) :
    (listUpdate l r f).length = l.length := List.length_set _ _ _

theorem adjust_preserves (st : SettingsHeap) (w h scale : ℕ)
    (hv : st.cached < st.cells.length) :
    (adjust_for_video st w h scale).1.cells[st.cached]? = st.cells[st.cached]? ∧
    (adjust_for_video st w h scale).1.cached = st.cached ∧
    st.cells.length ≤ (adjust_for_video st w h scale).1.cells.length := by
  have hne : st.cells.length ≠ st.cached := Nat.ne_of_gt hv
  have happ : (st.cells ++ [st.cells.getD st.cached baseSettings])[st.cached]? =
      st.cells[st.cached]? := List.getElem?_append_left hv
  simp only [adjust_for_video]
  split
  · exact ⟨happ, rfl, by simp⟩
  · constructor
    · split <;> split <;>
        simp only [listUpdate_length, List.length_append, List.length_singleton,
          listUpdate_preserves _ _ _ hne, happ]
    · refine ⟨rfl, ?_⟩
      split <;> split <;>
        simp [listUpdate_length, List.length_append]

/-- A sequence of `adjust_for_video` calls, threading the heap. -/
def adjustScript (st : SettingsHeap) : List (ℕ × ℕ × ℕ) → SettingsHeap
  | [] => st
  | c :: rest => adjustScript (adjust_for_video st c.1 c.2.1 c.2.2).1 rest

/-- C9: `adjust_for_video` never mutates the cached process-wide
`optimal_settings` dict: after any sequence of calls (any resolutions and
scale factors, including ones that raise the 8K `ValueError`), the cached
reference and the dict it points to are identical to what they were
before. -/
theorem c9_adjust_never_mutates_cached (st : SettingsHeap)
    (calls : List (ℕ × ℕ × ℕ)) (hv : st.cached < st.cells.length) :
    (adjustScript st calls).cells[st.cached]? = st.cells[st.cached]? ∧
    (adjustScript st calls).cached = st.cached := by
  induction calls generalizing st with
  | nil => exact ⟨rfl, rfl⟩
  | cons c rest ih =>
    obtain ⟨hget, hcached, hlen⟩ := adjust_preserves st c.1 c.2.1 c.2.2 hv
    have hv2 : (adjust_for_video st c.1 c.2.1 c.2.2).1.cached <
        (adjust_for_video st c.1 c.2.1 c.2.2).1.cells.length := by
      rw [hcached]
      exact lt_of_lt_of_le hv hlen
    obtain ⟨ihget, ihcached⟩ := ih (adjust_for_video st c.1 c.2.1 c.2.2).1 hv2
    constructor
    · show (adjustScript (adjust_for_video st c.1 c.2.1 c.2.2).1 rest).cells[st.cached]? =
        st.cells[st.cached]?
      rw [← hcached, ihget, hcached, hget]
    · show (adjustScript (adjust_for_video st c.1 c.2.1 c.2.2).1 rest).cached = st.cached
      rw [ihcached, hcached]

/-- Witness for `c9_adjust_never_mutates_cached`: a one-cell heap and two
calls (one normal, one raising the 8K error). -/
theorem c9_witness :
    (0 < (SettingsHeap.mk [baseSettings] 0).cells.length) ∧
    ((adjustScript (SettingsHeap.mk [baseSettings] 0)
        [(1920, 1080, 2), (7680, 4320, 2)]).cells[(0:ℕ)]? =
      (SettingsHeap.mk [baseSettings] 0).cells[(0:ℕ)]? ∧
     (adjustScript (SettingsHeap.mk [baseSettings] 0)
        [(1920, 1080, 2), (7680, 4320, 2)]).cached = 0) :=
  ⟨by norm_num,
   c9_adjust_never_mutates_cached (SettingsHeap.mk [baseSettings] 0)
     [(1920, 1080, 2), (7680, 4320, 2)] (by norm_num)⟩

/-! ## VideoWriter audio-mux fallback (`src/utils/video_processor.py`, C8) -/

/-- Abstract file contents: a video-only stream (identified by its payload)
or a muxed audio+video container. -/
inductive FileData where
  | videoOnly (v : ℕ)
  | muxedAV (v a : ℕ)
deriving DecidableEq

/-- A filesystem: paths (abstract ids) to file contents. -/
def FS : Type := ℕ → Option FileData

def fsSet (fs : FS) (p : ℕ) (d : FileData) : FS :=
  fun q => if q = p then some d else fs q

def fsRemove (fs : FS) (p : ℕ) : FS :=
  fun q => if q = p then none else fs q

/-- `shutil.move(src, dst)`: the destination gets the source's content and
the source is removed. -/
def fsMove (fs : FS) (p dst : ℕ) : FS :=
  match fs p with
  | none => fs
  | some d => fsRemove (fsSet fs dst d) p

/-- External conditions of the remux attempt: whether the `ffmpeg` binary
exists (`FileNotFoundError` otherwise) and whether the remux command
succeeds (`CalledProcessError` otherwise). -/
structure MuxEnv where
  ffmpegAvailable : Bool
  remuxSucceeds : Bool

/-- The video stream recorded in a file. -/
def videoStreamOf : Option FileData → ℕ
  | some (FileData.videoOnly v) => v
  | some (FileData.muxedAV v _) => v
  | none => 0

/-- `VideoWriter._copy_audio`: run ffmpeg to remux the temporary video-only
file with the audio of `audioSource` into `outputPath`, then delete the temp
file; on `CalledProcessError` or `FileNotFoundError` the exception is caught
and the temp file is moved to `outputPath` instead (video-only delivery).
No branch re-raises. -/
def copy_audio (env : MuxEnv) (fs : FS) (tempPath outputPath audioSource : ℕ) :
    FS :=
  if env.ffmpegAvailable = false then
    -- `except FileNotFoundError:` branch
    if (fs tempPath).isSome then fsMove fs tempPath outputPath else fs
  else if env.remuxSucceeds = false then
    -- `except subprocess.CalledProcessError:` branch
    if (fs tempPath).isSome then fsMove fs tempPath outputPath else fs
  else
    -- successful remux: output gets video of temp plus audio of the source
    -- (the `1:a:0?` map makes the audio stream optional)
    let vstream := videoStreamOf (fs tempPath)
    let out := match fs audioSource with
      | some (FileData.muxedAV _ a) => FileData.muxedAV vstream a
      | _ => FileData.videoOnly vstream
    let fs1 := fsSet fs outputPath out
    if (fs1 tempPath).isSome then fsRemove fs1 tempPath else fs1

/-- The state of a `VideoWriter` at `close()` time. -/
structure WriterState where
  audioSource : Option ℕ
  tempPath : Option ℕ
  outputPath : ℕ

/-- `VideoWriter.close`: release the encoder, then remux audio when an audio
source and a temp path were set up. -/
def writerClose (env : MuxEnv) (w : WriterState) (copyAudio : Bool) (fs : FS) :
    FS :=
  match copyAudio, w.audioSource, w.tempPath with
  | true, some a, some t => copy_audio env fs t w.outputPath a
  | _, _, _ => fs

/-- C8: if the remux tool is absent or the remux command fails during
`VideoWriter.close`, the video-only temporary file is delivered as the final
output at the declared output path; both exception branches are caught, so
the close completes normally and the run does not fail. -/
theorem c8_mux_fallback_delivers_video_only (env : MuxEnv) (fs : FS)
    (w : WriterState) (a t v : ℕ)
    (ha : w.audioSource = some a) (ht : w.tempPath = some t)
    (henv : env.ffmpegAvailable = false ∨ env.remuxSucceeds = false)
    (htemp : fs t = some (FileData.videoOnly v)) (hne : t ≠ w.outputPath) :
    writerClose env w true fs w.outputPath = some (FileData.videoOnly v) := by
  have hw : writerClose env w true fs = copy_audio env fs t w.outputPath a := by
    unfold writerClose
    rw [ha, ht]
  rw [hw]
  have hmove : fsMove fs t w.outputPath w.outputPath =
      some (FileData.videoOnly v) := by
    rw [fsMove, htemp]
    dsimp only
    rw [fsRemove]
    rw [if_neg (Ne.symm hne)]
    rw [fsSet]
    rw [if_pos rfl]
  rcases henv with he | he
  · rw [copy_audio, if_pos he, if_pos (by rw [htemp]; rfl)]
    exact hmove
  · rw [copy_audio]
    by_cases hav : env.ffmpegAvailable = false
    · rw [if_pos hav, if_pos (by rw [htemp]; rfl)]
      exact hmove
    · rw [if_neg hav, if_pos he, if_pos (by rw [htemp]; rfl)]
      exact hmove

/-- Witness for `c8_mux_fallback_delivers_video_only`: ffmpeg missing, temp
file at path 0 holding video payload 7, declared output path 1, audio
source 2. -/
theorem c8_witness :
    ((WriterState.mk (some 2) (some 0) 1).audioSource = some 2 ∧
     (WriterState.mk (some 2) (some 0) 1).tempPath = some 0 ∧
     (MuxEnv.mk false true).ffmpegAvailable = false ∧
     fsSet (fun _ => none) 0 (FileData.videoOnly 7) 0 =
       some (FileData.videoOnly 7) ∧
     (0 : ℕ) ≠ 1) ∧
    writerClose (MuxEnv.mk false true) (WriterState.mk (some 2) (some 0) 1)
      true (fsSet (fun _ => none) 0 (FileData.videoOnly 7)) 1 =
      some (FileData.videoOnly 7) :=
  ⟨⟨rfl, rfl, rfl, rfl, by norm_num⟩,
   c8_mux_fallback_delivers_video_only (MuxEnv.mk false true)
     (fsSet (fun _ => none) 0 (FileData.videoOnly 7))
     (WriterState.mk (some 2) (some 0) 1) 2 0 7 rfl rfl (Or.inl rfl) rfl
     (by norm_num)⟩

/-- Witness for `c2_resolution_ceiling_total_pixels`: the product-only
dependence applied to the portrait resolution and its transpose, and the
pixel-threshold characterization at exactly 7680×4320. -/
theorem c2_witness :
    ((3296:ℤ) * 5856 = 5856 * 3296) ∧
    resolution_rejected 3296 5856 = resolution_rejected 5856 3296 ∧
    (resolution_rejected 7680 4320 = true ↔ (34812723:ℤ) < 7680 * 4320) :=
  ⟨by norm_num,
   c2_resolution_ceiling_total_pixels.1 3296 5856 5856 3296 (by norm_num),
   c2_resolution_ceiling_total_pixels.2.2.2 7680 4320⟩
